import Mathlib

/-!
Verification of the siemply orchestration engine (src/siemply/core) against its
natural-language specification.

The development shallowly embeds the core Python modules as executable Lean
functions:

* `SSHExecutorM` — `core/ssh_executor.py` (`SSHExecutor.execute_command`);
* `SecretsM` — `core/secrets.py` (`SecretsManager.get_secret` and the
  environment / file / Vault backends);
* `InventoryM` — `core/inventory.py` (`Inventory.get_group_hosts`);
* `TaskRunnerM` — `core/task_runner.py` (`TaskRunner.execute_task`,
  `_should_skip_task`, `_evaluate_condition`, `_execute_file`);
* `OrchestratorM` — `core/orchestrator.py` (`Orchestrator.run_playbook`,
  `_execute_rolling`, `_execute_host_tasks`, `_calculate_run_status`).

Remote I/O (SSH command outcomes, the Python `eval` used for conditions, the
behaviour of task handlers) is supplied by explicit environment parameters;
everything else is translated directly from the source.  Python exceptions are
modelled with `Except`/`Option` and the dynamic-typing failures present in the
source (a missing required call argument, an attribute lookup on a dataclass
that lacks it) are modelled by explicit, documented constants so that the
control flow of the embedded functions matches the control flow the Python
interpreter takes.
-/

/-- A single-quote character as a string (used when the source splices quoted
values into shell commands and condition strings). -/
def squote : String := (Char.ofNat 39).toString

namespace SSHExecutorM

/-- `SSHResult` dataclass of `core/ssh_executor.py`: exit code, captured
stdout/stderr and elapsed duration (durations are modelled as abstract
`Nat` ticks supplied by the environment). -/
structure SSHResult where
  exit_code : Int
  stdout : String
  stderr : String
  duration : Nat
  deriving Repr, DecidableEq

/-- Outcome of the underlying `connection.run(command, timeout=timeout)` call,
as seen by `SSHExecutor.execute_command`: the command completed with an exit
status and output; or the run raised `asyncio.TimeoutError` after having
captured some partial output before the deadline; or some other exception
(connection establishment failure, protocol error, ...) was raised. -/
inductive RunOutcome where
  | completed (exit_status : Int) (stdout stderr : String)
  | timedOut (partialStdout partialStderr : String)
  | raised (message : String)
  deriving Repr, DecidableEq

/-- `SSHExecutor.execute_command` (ssh_executor.py lines 180-230): the body
runs the command and returns an `SSHResult`; the `except asyncio.TimeoutError`
clause returns a synthetic result with exit code 124, empty stdout and a fixed
timeout message; the final `except Exception` clause returns a synthetic
result with exit code 1 and the exception text.  The partial output carried by
the timeout exception is not inspected by the source, so it does not reach the
returned result. -/
def execute_command (outcome : RunOutcome) (timeout : Nat) (elapsed : Nat) :
    SSHResult :=
  match outcome with
  | .completed e o s => ⟨e, o, s, elapsed⟩
  | .timedOut _ _ =>
      ⟨124, "", "Command timed out after " ++ toString timeout ++ " seconds",
        elapsed⟩
  | .raised msg => ⟨1, "", msg, elapsed⟩

end SSHExecutorM

namespace SecretsM

/-- State of the HashiCorp Vault backend: whether the store is reachable over
the network, and the key/value pairs it holds when it is. -/
structure VaultState where
  reachable : Bool
  store : List (String × String)
  deriving Repr, DecidableEq

/-- `VaultSecretsBackend.get_secret` (secrets.py lines 270-289): every failure
(`_get_client` raising because the store is unreachable or authentication
fails, or the read itself raising) is caught by the `except Exception` clause,
which returns `None` — exactly the value returned when the secret is absent
from the store. -/
def vault_get_secret (vs : VaultState) (key : String) : Option String :=
  if vs.reachable then
    (vs.store.find? (fun p => p.1 = key)).map (·.2)
  else
    none

/-- `EnvironmentSecretsBackend.get_secret` (secrets.py lines 45-51): reads
`os.environ[prefix + key.upper()]`, returning `None` when the variable is not
set. -/
def env_get_secret (environ : List (String × String)) (prefix_ : String)
    (key : String) : Option String :=
  (environ.find? (fun p => p.1 = prefix_ ++ key.toUpper)).map (·.2)

/-- State of a `SecretsManager` (secrets.py lines 344-427): the process
environment backing the `env` backend, the decrypted contents of the file
backend, the Vault backend when configured (`none` models
`self.backends[..] = None`), and the configured default backend name. -/
structure ManagerState where
  environ : List (String × String)
  file_store : List (String × String)
  vault : Option VaultState
  default_backend : String
  deriving Repr, DecidableEq

/-- `FileSecretsBackend.get_secret` (secrets.py lines 202-208): a plain lookup
in the decrypted secrets map (load/decryption failures are swallowed by
`_load_secrets`, leaving the map empty). -/
def file_get_secret (store : List (String × String)) (key : String) :
    Option String :=
  (store.find? (fun p => p.1 = key)).map (·.2)

/-- `SecretsManager.get_secret` (secrets.py lines 410-427): an unknown backend
name returns `None`; a configured-but-absent backend (`vault` left as `None`)
returns `None`; otherwise the backend call runs under `try`, and the
`except Exception` clause maps any backend exception to `None`.  The three
shipped backends already catch their own exceptions, so every outcome —
secret found, secret missing, backend unavailable — is reported through the
same `Option String` channel, and no `SecretsError` type exists anywhere in
the source. -/
def manager_get_secret (st : ManagerState) (key : String)
    (backend : Option String) : Option String :=
  let backend_name := backend.getD st.default_backend
  if backend_name = "env" then
    env_get_secret st.environ "SIEMPLY_" key
  else if backend_name = "file" then
    file_get_secret st.file_store key
  else if backend_name = "vault" then
    match st.vault with
    | none => none
    | some vs => vault_get_secret vs key
  else
    none

end SecretsM

namespace InventoryM

/-- A group record as stored in `Inventory.groups` (inventory.py): the list of
direct member host names and the names of its child groups
(`get_group_hosts` recurses through `child_group.name`, i.e. through the name
table, so the name-keyed view is the one the resolution code actually uses). -/
structure GroupRec where
  hosts : List String
  children : List String
  deriving Repr, DecidableEq

/-- The `Inventory.groups` dictionary: group name to group record. -/
def Inv : Type := List (String × GroupRec)

/-- `Inventory.get_group(name)` — dictionary lookup returning `None` for a
missing group. -/
def get_group (inv : Inv) (name : String) : Option GroupRec :=
  (inv.find? (fun p => p.1 = name)).map (·.2)

/-- `Inventory.get_group_hosts` (inventory.py lines 183-195), with an explicit
recursion-depth bound standing for the Python call stack: an unknown group
yields `[]`; otherwise the direct hosts are followed by the recursive
expansion of each child group, concatenated — the source performs no
de-duplication and no cycle detection.  `none` means the computation did not
complete within `fuel` nested calls (in Python: the recursion is still
running, until the interpreter kills it with `RecursionError`). -/
def get_group_hosts_fuel (inv : Inv) : Nat → String → Option (List String)
  | 0, _ => none
  | fuel + 1, name =>
    match get_group inv name with
    | none => some []
    | some g =>
        g.children.foldl
          (fun acc child =>
            match acc, get_group_hosts_fuel inv fuel child with
            | some l, some cl => some (l ++ cl)
            | _, _ => none)
          (some g.hosts)

/-- An inventory in which host `h1` is reachable from group `g` through both
of its child groups `c1` and `c2` (the same host object is listed in two
groups, as happens when an inventory document repeats a host under two
sibling groups). -/
def dupInv : Inv :=
  [("g", ⟨[], ["c1", "c2"]⟩), ("c1", ⟨["h1"], []⟩), ("c2", ⟨["h1"], []⟩)]

/-- An inventory whose group graph is cyclic: `a` lists `b` as a child and `b`
lists `a` (constructible through `Inventory.add_group`, which stores any group
without validation — inventory.py lines 266-274). -/
def cycInv : Inv :=
  [("a", ⟨["ha"], ["b"]⟩), ("b", ⟨["hb"], ["a"]⟩)]

end InventoryM

namespace TaskRunnerM

open SSHExecutorM

/-- The fields of a task configuration dictionary that
`TaskRunner.execute_task` and `_should_skip_task` read.  `ignore_errors` is
carried by playbook documents (playbooks/schema.py declares it) but — as the
theorems below establish — is never read by the core engine. -/
structure TaskConfig where
  name : String
  taskType : String
  whenCond : Option String
  onlyIf : Option String
  tags : List String
  ignore_errors : Bool
  deriving Repr, DecidableEq

/-- The host dictionary fields read by the task runner and orchestrator
(`_parse_host` always populates `ansible_host`, defaulting it to the host
name). -/
structure HostSpec where
  name : String
  ansible_host : String
  splunk_type : String
  os_family : String
  deriving Repr, DecidableEq

/-- The identity `host.get(..)` chain: `ansible_host`, falling back to
`name`.  The `ansible_host` key is always present
on parsed hosts, so the identity is the `ansible_host` value. -/
def hostId (h : HostSpec) : String := h.ansible_host

/-- The run-configuration fields read by `_should_skip_task` (`RunConfig.tags`
and `RunConfig.skip_tags`; a Python `None` behaves like the empty list in the
truthiness tests the source performs). -/
structure RunCfg where
  tags : List String
  skip_tags : List String
  deriving Repr, DecidableEq

/-- The uniform handler-result dictionary shape
`{status, output, error?, changed, facts?}` returned by every task handler. -/
structure HandlerResult where
  status : String
  output : String
  error : Option String
  changed : Bool
  facts : List (String × String)
  deriving Repr, DecidableEq

/-- The `TaskResult` dataclass of `core/task_runner.py` (the fields the
claims are about; start/end wall-clock times are not modelled). -/
structure TaskResultL where
  name : String
  status : String
  output : String
  error : Option String
  changed : Bool
  facts : List (String × String)
  deriving Repr, DecidableEq

/-- Environment resolving the effects `execute_task` performs: `pyEval` is the
Python `eval` applied to a substituted condition string (`Except.error`
models the evaluation raising), and `handler` is the behaviour of the
registered handler coroutine for a task on the current host (`Except.error`
models the handler raising). -/
structure TaskEnv where
  pyEval : String → Except String Bool
  handler : TaskConfig → Except String HandlerResult

/-- The variable substitution of `_evaluate_condition` (task_runner.py lines
176-178): the three `{{ var }}` forms are replaced by the quoted host
attribute. -/
def substitute_condition (cond : String) (host : HostSpec) : String :=
  ((cond.replace ("\x7b\x7b ansible_host \x7d\x7d")
        (squote ++ host.ansible_host ++ squote)).replace
      ("\x7b\x7b splunk_type \x7d\x7d") (squote ++ host.splunk_type ++ squote)).replace
    ("\x7b\x7b os_family \x7d\x7d") (squote ++ host.os_family ++ squote)

/-- `TaskRunner._evaluate_condition` (task_runner.py lines 171-183):
substitutes variables, evaluates the string with `eval`, and maps any
exception to `False` via the bare `except` clause. -/
def evaluate_condition (env : TaskEnv) (cond : String) (host : HostSpec) :
    Bool :=
  match env.pyEval (substitute_condition cond host) with
  | .ok b => b
  | .error _ => false

/-- `TaskRunner._should_skip_task` (task_runner.py lines 146-169): skip when a
`when` or `only_if` condition evaluates false, when run tags are given and
none matches the task, or when a skip tag matches. -/
def should_skip_task (env : TaskEnv) (tc : TaskConfig) (host : HostSpec)
    (rc : RunCfg) : Bool :=
  (match tc.whenCond with
    | some w => !evaluate_condition env w host
    | none => false) ||
  (match tc.onlyIf with
    | some o => !evaluate_condition env o host
    | none => false) ||
  (!rc.tags.isEmpty && !rc.tags.any (fun tag => tc.tags.contains tag)) ||
  (!rc.skip_tags.isEmpty && rc.skip_tags.any (fun tag => tc.tags.contains tag))

/-- The keys of the `self.task_types` handler registry (task_runner.py lines
43-67). -/
def task_type_names : List String :=
  ["command", "file", "package", "service", "archive", "template", "script",
   "checkpoint", "splunk_precheck", "splunk_download", "splunk_install",
   "splunk_backup", "splunk_restore", "splunk_health_check",
   "splunk_version_check", "splunk_status_check", "splunk_wait_ready",
   "splunk_verify_package", "splunk_verify_backup", "splunk_restore_config",
   "splunk_set_permissions", "splunk_cleanup_backups",
   "splunk_validate_upgrade"]

/-- Number of required positional parameters of
`AuditLogger.log_task_execution(self, host, task_config, task_result,
run_id)` (audit.py lines 213-214), excluding `self`. -/
def log_task_execution_required_args : Nat := 4

/-- Number of arguments the call site
`self.audit.log_task_execution(host, task_config, task_result)`
(task_runner.py line 125) actually passes. -/
def log_task_execution_call_args : Nat := 3

/-- Whether the audit call made by `execute_task` binds all required
parameters.  Python checks call arity before entering the function body, so
when this is `false` the call raises `TypeError` and no record is written. -/
def audit_call_binds : Bool :=
  log_task_execution_call_args = log_task_execution_required_args

/-- A row of the `task_executions` audit table, as built by
`AuditLogger.log_task_execution`. -/
structure TaskExecutionRecord where
  host : String
  task_name : String
  task_type : String
  status : String
  changed : Bool
  deriving Repr, DecidableEq

/-- Observable events of one task execution: the dispatch of a registered
handler against the host (the only point where the host can be touched), a
task-execution record committed to the audit store, and — at the orchestrator
level — an inter-batch sleep. -/
inductive Ev where
  | dispatch (host : String) (task_name : String) (task_type : String)
  | audit (r : TaskExecutionRecord)
  | delay (seconds : Nat)
  deriving Repr, DecidableEq

/-- The `TaskResult` built by the `except Exception` clause of `execute_task`
(task_runner.py lines 129-144): status failed, empty output, the exception
text as error. -/
def exceptionTaskResult (task_name msg : String) : TaskResultL :=
  ⟨task_name, "failed", "", some msg, false, []⟩

/-- The message of the `TypeError` raised by the under-applied audit call. -/
def auditTypeErrorMsg : String :=
  "TypeError: log_task_execution missing 1 required positional argument: run_id"

/-- `TaskRunner.execute_task` (task_runner.py lines 69-144) together with the
events it produces.  In order: (1) `_should_skip_task` — a skip returns the
fixed skipped result without dispatching anything; (2) unknown task types
raise `ValueError`, caught by the broad `except` into a failed result;
(3) the registered handler runs (a handler exception is likewise caught into
a failed result); (4) the `TaskResult` is built from the handler result and
`log_task_execution` is called — the call passes 3 of the 4 required
positional arguments, so it raises `TypeError` before writing anything and
the `except Exception` clause turns the already-executed task into a failed
result. -/
def execute_task (env : TaskEnv) (tc : TaskConfig) (host : HostSpec)
    (rc : RunCfg) : TaskResultL × List Ev :=
  if should_skip_task env tc host rc then
    (⟨tc.name, "skipped", "Task skipped due to condition", none, false, []⟩, [])
  else if tc.taskType ∉ task_type_names then
    (exceptionTaskResult tc.name ("Unknown task type: " ++ tc.taskType), [])
  else
    match env.handler tc with
    | .error msg =>
        (exceptionTaskResult tc.name msg,
         [Ev.dispatch (hostId host) tc.name tc.taskType])
    | .ok hr =>
        let task_result : TaskResultL :=
          ⟨tc.name, hr.status, hr.output, hr.error, hr.changed, hr.facts⟩
        if audit_call_binds then
          (task_result,
           [Ev.dispatch (hostId host) tc.name tc.taskType,
            Ev.audit ⟨hostId host, tc.name, tc.taskType, task_result.status,
              task_result.changed⟩])
        else
          (exceptionTaskResult tc.name auditTypeErrorMsg,
           [Ev.dispatch (hostId host) tc.name tc.taskType])

end TaskRunnerM

namespace TaskRunnerM

open SSHExecutorM

/-- The argument fields of a `file` task read by `TaskRunner._execute_file`
(task_runner.py lines 204-244). -/
structure FileArgs where
  path : String
  state : String
  directory : Bool
  content : String
  deriving Repr, DecidableEq

/-- `TaskRunner._execute_file` (task_runner.py lines 204-244).  `run` is the
remote host answering each shell command with an `SSHResult`.  For
`state=present` the handler unconditionally writes the file (or `mkdir -p`s
the directory) and reports `changed: True` whether or not the host was
already in the desired state; for `state=absent` it unconditionally runs
`rm -rf` and likewise reports `changed: True`.  The optional
owner/group/mode commands are issued afterwards with their results ignored,
so they are not modelled.  Any other `state` falls off the end of the Python
function, returning `None`. -/
def execute_file (run : String → SSHResult) (args : FileArgs) :
    Option HandlerResult :=
  if args.state = "present" then
    let cmd := if args.directory then "mkdir -p " ++ args.path
      else "echo " ++ squote ++ args.content ++ squote ++ " > " ++ args.path
    let result := run cmd
    some ⟨if result.exit_code = 0 then "success" else "failed", result.stdout,
      if result.exit_code = 0 then none else some result.stderr, true, []⟩
  else if args.state = "absent" then
    let result := run ("rm -rf " ++ args.path)
    some ⟨if result.exit_code = 0 then "success" else "failed", result.stdout,
      if result.exit_code = 0 then none else some result.stderr, true, []⟩
  else
    none

end TaskRunnerM

namespace OrchestratorM

open TaskRunnerM

/-- Whether the `TaskResult` dataclass defines an attribute named `get`.  It
is a plain `@dataclass` with fields `name, status, start_time, end_time,
duration, output, error, changed, facts` and no methods, so the
`task_result.get(..)` attribute lookups in
`Orchestrator._execute_host_tasks` (orchestrator.py lines 310-312) raise
`AttributeError`, which the surrounding `except Exception` catches. -/
def taskResult_has_get : Bool := false

/-- The per-host result dictionary built by
`Orchestrator._execute_host_tasks`: aggregate status, the accumulated task
results, and the error slot. -/
structure HostResult where
  status : String
  tasks : List TaskResultL
  error : Option String
  deriving Repr, DecidableEq

/-- The loop body of `Orchestrator._execute_host_tasks` (orchestrator.py
lines 303-313): each task is executed through `TaskRunner.execute_task` and
appended to the host results; the subsequent failure check reads
`task_result.get(..)` — but `execute_task` returns a `TaskResult`
dataclass, not a dict, so the lookup raises `AttributeError` and control
jumps to the `except Exception` handler (lines 321-324), which marks the
host failed and ends the loop.  The `taskResult_has_get` branch keeps the
control flow the source *would* take if the result were a dict, so the
embedding documents both paths. -/
def host_tasks_loop (env : TaskEnv) (host : HostSpec) (rc : RunCfg) :
    List TaskConfig → HostResult → List Ev → HostResult × List Ev
  | [], hr, evs => (hr, evs)
  | tc :: rest, hr, evs =>
      let step := execute_task env tc host rc
      let hr2 : HostResult := ⟨hr.status, hr.tasks ++ [step.1], hr.error⟩
      let evs2 := evs ++ step.2
      if taskResult_has_get then
        if step.1.status = "failed" then
          (⟨"failed", hr2.tasks, step.1.error⟩, evs2)
        else
          host_tasks_loop env host rc rest hr2 evs2
      else
        (⟨"failed", hr2.tasks,
          some "AttributeError: TaskResult object has no attribute get"⟩, evs2)

/-- `Orchestrator._execute_host_tasks` (orchestrator.py lines 289-327):
starts from an aggregate status of success and runs the playbook task list
sequentially. -/
def execute_host_tasks (env : TaskEnv) (tasks : List TaskConfig)
    (host : HostSpec) (rc : RunCfg) : HostResult × List Ev :=
  host_tasks_loop env host rc tasks ⟨"success", [], none⟩ []

/-- `Orchestrator._execute_rolling` (orchestrator.py lines 218-252) for a
batch size of `Bp + 1` (the source raises `ValueError` out of
`range(0, len(hosts), 0)` when the batch size is zero; the positive case is
total).  Hosts are processed in order, `batch_size` at a time; each batch
member runs `_execute_host_tasks` to completion before the next member
starts, and after each batch except the last the coordinator sleeps for
`batch_delay` seconds (the `if i + batch_size < len(hosts)` guard). -/
def execute_rolling_go (env : TaskEnv) (tasks : List TaskConfig) (rc : RunCfg)
    (Bp D : Nat) : List HostSpec → List (String × HostResult) × List Ev
  | [] => ([], [])
  | h :: rest0 =>
      let batch := h :: rest0.take Bp
      let rest := rest0.drop Bp
      let batch_results :=
        batch.map (fun hh => (hostId hh, (execute_host_tasks env tasks hh rc).1))
      let batch_events :=
        (batch.map (fun hh => (execute_host_tasks env tasks hh rc).2)).flatten
      if rest.isEmpty then
        (batch_results, batch_events)
      else
        let next := execute_rolling_go env tasks rc Bp D rest
        (batch_results ++ next.1, batch_events ++ [Ev.delay D] ++ next.2)
  termination_by hs => hs.length
  decreasing_by
    simp only [List.length_drop, List.length_cons]
    omega

/-- `Orchestrator._execute_rolling` with the source signature: `none` models
the `ValueError` raised by `range` for a zero batch size. -/
def execute_rolling (env : TaskEnv) (tasks : List TaskConfig) (rc : RunCfg)
    (B D : Nat) (hosts : List HostSpec) :
    Option (List (String × HostResult) × List Ev) :=
  match B with
  | 0 => none
  | Bp + 1 => some (execute_rolling_go env tasks rc Bp D hosts)

/-- `Orchestrator._calculate_run_status` (orchestrator.py lines 329-343):
`skipped` for an empty result map, `success` when no host failed, `failed`
when additionally no host succeeded, `partial` otherwise. -/
def calculate_run_status (results : List (String × HostResult)) : String :=
  if results.length = 0 then "skipped"
  else
    let successful := (results.filter (fun r => r.2.status = "success")).length
    let failed := (results.filter (fun r => r.2.status = "failed")).length
    if failed = 0 then "success"
    else if successful = 0 then "failed"
    else "partial"

/-- The `RunResult` fields populated by `Orchestrator.run_playbook`
(orchestrator.py lines 125-138) that the claims are about. -/
structure RunResultL where
  status : String
  total_hosts : Nat
  successful_hosts : Nat
  failed_hosts : Nat
  skipped_hosts : Nat
  results : List (String × HostResult)
  deriving Repr, DecidableEq

/-- `Orchestrator.run_playbook` (orchestrator.py lines 91-151) from the point
where the target hosts have been resolved (`_resolve_target_hosts` plus the
`config.limit` truncation), for the rolling strategy: execute the playbook
over the resolved hosts, then aggregate the per-host results into a
`RunResult` via `_calculate_run_status` and the status counts. -/
def run_playbook (env : TaskEnv) (tasks : List TaskConfig) (rc : RunCfg)
    (B D : Nat) (hosts : List HostSpec) : Option (RunResultL × List Ev) :=
  match execute_rolling env tasks rc B D hosts with
  | none => none
  | some (results, evs) =>
      some (⟨calculate_run_status results,
        hosts.length,
        (results.filter (fun r => r.2.status = "success")).length,
        (results.filter (fun r => r.2.status = "failed")).length,
        (results.filter (fun r => r.2.status = "skipped")).length,
        results⟩, evs)

/-- Fixed-size chunking, following the words of the specification ("partitions
hosts into fixed-size batches"): used to state, independently of
`execute_rolling_go`, what the rolling trace must look like.  Chunk size is
`Bp + 1`. -/
def specChunks (Bp : Nat) : List α → List (List α)
  | [] => []
  | h :: t => (h :: t.take Bp) :: specChunks Bp (t.drop Bp)
  termination_by l => l.length
  decreasing_by
    simp only [List.length_drop, List.length_cons]
    omega

end OrchestratorM

namespace Fixtures

open SSHExecutorM SecretsM TaskRunnerM OrchestratorM

/-- Is an event an audit-store append? -/
def isAuditEv : Ev → Bool
  | .audit _ => true
  | _ => false

/-- A concrete host (the `web-01` host of the specification scenarios). -/
def host1 : HostSpec := ⟨"web-01", "web-01", "uf", "RedHat"⟩

/-- A second concrete host. -/
def host2 : HostSpec := ⟨"web-02", "web-02", "uf", "RedHat"⟩

/-- A run configuration with no tag filters. -/
def rc0 : RunCfg := ⟨[], []⟩

/-- A successful handler result (a `command` task whose command exited 0). -/
def okHandlerResult : HandlerResult := ⟨"success", "ok", none, true, []⟩

/-- An environment in which conditions evaluate to `True` and every handler
reports success. -/
def envAllOk : TaskEnv :=
  ⟨fun _ => .ok true, fun _ => .ok okHandlerResult⟩

/-- An environment in which the handler for the task named `A` reports a
failed status (its remote command exited non-zero) and every other handler
reports success. -/
def envAFails : TaskEnv :=
  ⟨fun _ => .ok true,
   fun tc => if tc.name = "A" then .ok ⟨"failed", "", some "exit 1", false, []⟩
     else .ok okHandlerResult⟩

/-- An environment whose condition evaluator raises (an unknown variable in
the expression after substitution); handlers report success. -/
def envRaisingEval : TaskEnv :=
  ⟨fun _ => .error "NameError: name undefined_var is not defined",
   fun _ => .ok okHandlerResult⟩

/-- Task `A`: a `command` task carrying the ignore-failure flag
(`ignore_errors: true` in the playbook document). -/
def taskA : TaskConfig := ⟨"A", "command", none, none, [], true⟩

/-- Task `B`: a `command` task following `A`. -/
def taskB : TaskConfig := ⟨"B", "command", none, none, [], false⟩

/-- A task guarded by a `when` condition that cannot be evaluated. -/
def taskBadCond : TaskConfig :=
  ⟨"C", "command", some "undefined_var == 1", none, [], false⟩

/-- A `SecretsManager` whose default Vault backend holds the secret but is
unreachable over the network. -/
def stUnreach : ManagerState := ⟨[], [], some ⟨false, [("k", "v")]⟩, "vault"⟩

/-- A `SecretsManager` whose default Vault backend is reachable but does not
hold the secret. -/
def stMissing : ManagerState := ⟨[], [], some ⟨true, []⟩, "vault"⟩

/-- A remote host on which every shell command succeeds with no output — in
particular a host already in the desired state, where
`echo content > path` trivially succeeds. -/
def okRemote : String → SSHResult := fun _ => ⟨0, "", "", 0⟩

end Fixtures

section Theorems

open SSHExecutorM SecretsM InventoryM TaskRunnerM OrchestratorM Fixtures

/-- Helper: resolution of group `a` of the cyclic inventory never completes,
at any recursion depth, and neither does resolution of `b`. -/
lemma cycInv_both_none (fuel : Nat) :
    get_group_hosts_fuel cycInv fuel "a" = none ∧
    get_group_hosts_fuel cycInv fuel "b" = none := by
  induction fuel with
  | zero => exact ⟨rfl, rfl⟩
  | succ n ih =>
      constructor
      · show get_group_hosts_fuel cycInv (n + 1) "a" = none
        simp only [get_group_hosts_fuel]
        rw [show get_group cycInv "a" = some ⟨["ha"], ["b"]⟩ from rfl]
        simp only [List.foldl_cons, List.foldl_nil]
        rw [ih.2]
      · show get_group_hosts_fuel cycInv (n + 1) "b" = none
        simp only [get_group_hosts_fuel]
        rw [show get_group cycInv "b" = some ⟨["hb"], ["a"]⟩ from rfl]
        simp only [List.foldl_cons, List.foldl_nil]
        rw [ih.1]

/-- C9: the specification requires group resolution to terminate on cyclic
child references by detecting the cycle and raising a `ConfigError`.  The
source does neither: no `ConfigError` type exists anywhere in the code base,
`add_group` stores cyclic structures without validation, and
`get_group_hosts` on the two-group cycle `a -> b -> a` fails to complete
within ANY recursion depth — in Python the recursion runs until the
interpreter aborts it with `RecursionError`. -/
theorem C9_cycle_never_terminates (fuel : Nat) :
    get_group_hosts_fuel cycInv fuel "a" = none :=
  (cycInv_both_none fuel).1

/-- C2 counterexample: in `dupInv` the host `h1` is reachable from group `g`
through both child groups `c1` and `c2`, and `get_group_hosts` returns it
twice — not exactly once as the claim states. -/
theorem C2_cex :
    get_group_hosts_fuel dupInv 3 "g" = some ["h1", "h1"] ∧
    ((get_group_hosts_fuel dupInv 3 "g").getD []).count "h1" = 2 := by
  exact ⟨rfl, rfl⟩

/-- Helper: when every child group resolves within `fuel`, the child fold of
`get_group_hosts` completes and returns the accumulator followed by the
concatenated child expansions. -/
lemma get_group_hosts_fold (inv : InventoryM.Inv) (fuel : Nat)
    (cs : List String) (acc : List String)
    (hc : ∀ c ∈ cs, ∃ l, get_group_hosts_fuel inv fuel c = some l) :
    cs.foldl
      (fun acc child =>
        match acc, get_group_hosts_fuel inv fuel child with
        | some l, some cl => some (l ++ cl)
        | _, _ => none)
      (some acc)
      = some (acc ++
          (cs.map (fun c => (get_group_hosts_fuel inv fuel c).getD [])).flatten) := by
  induction cs generalizing acc with
  | nil => simp
  | cons c cs ih =>
      obtain ⟨l, hl⟩ := hc c (by simp)
      simp only [List.foldl_cons, hl]
      rw [ih (acc ++ l) (fun x hx => hc x (by simp [hx]))]
      simp [hl, List.append_assoc]

/-- C2 amended: `get_group_hosts` collapses no duplicates — it returns the
group's direct hosts followed by the recursive expansions of its child
groups, concatenated, so each host is returned once per occurrence among the
direct hosts plus once per appearance in each child group's expansion;
hence a host reachable through multiple nested child groups comes back
multiple times, not exactly once (see `C2_cex`).  Stated over the fuelled
embedding: whenever the group exists and each child expansion completes
within `fuel`, the group's expansion completes and the multiplicity of every
host in it is the sum of its multiplicity among the direct hosts and its
multiplicities in the child expansions. -/
theorem C2_amended_counts (inv : InventoryM.Inv) (fuel : Nat) (name : String)
    (g : InventoryM.GroupRec) (hg : get_group inv name = some g)
    (hc : ∀ c ∈ g.children, ∃ l, get_group_hosts_fuel inv fuel c = some l) :
    ∃ l, get_group_hosts_fuel inv (fuel + 1) name = some l ∧
      ∀ h, l.count h = g.hosts.count h +
        ((g.children.map
          (fun c => ((get_group_hosts_fuel inv fuel c).getD []).count h)).sum) := by
  refine ⟨g.hosts ++
      (g.children.map (fun c => (get_group_hosts_fuel inv fuel c).getD [])).flatten,
    ?_, ?_⟩
  · simp only [get_group_hosts_fuel, hg]
    exact get_group_hosts_fold inv fuel g.children g.hosts hc
  · intro h
    rw [List.count_append, List.count_flatten, List.map_map]
    rfl

/-- C2 witness: the amended statement at the duplicated inventory — group `g`
holds no direct hosts and two children `c1`, `c2` each holding `h1`, so the
expansion of `g` contains `h1` with multiplicity two. -/
theorem C2_w :
    ∃ l, get_group_hosts_fuel dupInv 3 "g" = some l ∧ l.count "h1" = 2 := by
  obtain ⟨l, hl, hcount⟩ := C2_amended_counts dupInv 2 "g" ⟨[], ["c1", "c2"]⟩
    rfl
    (by
      intro c hcm
      simp only [List.mem_cons, List.not_mem_nil, or_false] at hcm
      rcases hcm with rfl | rfl
      · exact ⟨["h1"], rfl⟩
      · exact ⟨["h1"], rfl⟩)
  refine ⟨l, hl, ?_⟩
  rw [hcount]
  rfl

/-- C6 counterexample: a command that times out after having produced output
returns a synthetic result whose stdout is empty — the output captured
before the deadline IS lost (the `except asyncio.TimeoutError` clause
builds the result from scratch and never reads the partial output carried
by the exception). -/
theorem C6_cex :
    (execute_command (.timedOut "partial out" "partial err") 5 1).stdout = ""
      ∧ "partial out" ≠ "" := by
  exact ⟨rfl, by decide⟩

/-- C6 amended: a timed-out command returns (rather than raising) a synthetic
result carrying the reserved timeout exit code 124 and a fixed timeout
message, with the exit code distinct from the generic failure code 1 used
for other exceptions — but with empty stdout: partial output captured
before the deadline is discarded. -/
theorem C6_timeout_result (po pe m : String) (t d : Nat) :
    (execute_command (.timedOut po pe) t d).exit_code = 124 ∧
    (execute_command (.timedOut po pe) t d).stdout = "" ∧
    (execute_command (.timedOut po pe) t d).stderr =
      "Command timed out after " ++ toString t ++ " seconds" ∧
    (execute_command (.raised m) t d).exit_code = 1 := by
  exact ⟨rfl, rfl, rfl, rfl⟩

/-- C7 counterexample: with the Vault backend unreachable (but holding the
secret), `SecretsManager.get_secret` returns `None` — exactly the same
outcome as a reachable backend that does not hold the secret.  No
`SecretsError` exists in the source; the caller cannot distinguish
"backend unavailable" from "secret not found". -/
theorem C7_cex :
    manager_get_secret stUnreach "k" none = none ∧
    manager_get_secret stMissing "k" none = none := by
  exact ⟨rfl, rfl⟩

/-- C7 amended: a backend failure does not crash the caller — every backend
exception is swallowed (`VaultSecretsBackend.get_secret` catches its own
errors and `SecretsManager.get_secret` wraps the call in a further
`try/except`) and surfaces as `None`, the same value as "secret not
found", for every key and every store content. -/
theorem C7_failure_swallowed (environ fs store : List (String × String))
    (key dflt : String) :
    manager_get_secret ⟨environ, fs, some ⟨false, store⟩, dflt⟩ key
      (some "vault") = none ∧
    manager_get_secret ⟨environ, fs, some ⟨true, []⟩, dflt⟩ key
      (some "vault") = none := by
  exact ⟨rfl, rfl⟩

/-- C8: re-running a `file: state=present` task against a host already in the
desired state (every command succeeds trivially) still reports
`changed=true`; `_execute_file` hard-codes `changed: True` on every path,
so the no-op signal required by the specification never occurs. -/
theorem C8_file_present_always_changed :
    execute_file okRemote ⟨"/opt/splunk/etc/app.conf", "present", false, "x"⟩ =
      some ⟨"success", "", none, true, []⟩ := by
  rfl

end Theorems

section Theorems2

open SSHExecutorM SecretsM InventoryM TaskRunnerM OrchestratorM Fixtures

/-- C3: for EVERY leading task `A` — failed, successful, or skipped, with or
without the ignore-failure flag — `Orchestrator._execute_host_tasks` records
only `A`'s outcome, marks the host failed, and never executes any following
task: after `execute_task` returns, the failure check reads
`task_result.get(..)` on a `TaskResult` dataclass, raising `AttributeError`
into the broad `except` clause.  In particular the specification's
ignore-failure behaviour (continue with the remaining tasks) never happens,
and no `ignore_errors` flag is consulted anywhere in the core engine. -/
theorem C3_host_aborts_after_first_task (env : TaskEnv) (host : HostSpec)
    (rc : RunCfg) (A : TaskConfig) (rest : List TaskConfig) :
    (execute_host_tasks env (A :: rest) host rc).1.status = "failed" ∧
    (execute_host_tasks env (A :: rest) host rc).1.tasks =
      [(execute_task env A host rc).1] ∧
    (execute_host_tasks env (A :: rest) host rc).2 =
      (execute_task env A host rc).2 := by
  refine ⟨?_, ?_, ?_⟩ <;>
    simp [execute_host_tasks, host_tasks_loop, taskResult_has_get]

/-- C4: no task execution is ever recorded through
`AuditLogger.log_task_execution`: the call site passes three of the four
required positional arguments (`run_id` is missing), so the call raises
`TypeError` before any record is written, for every environment, task, host
and run configuration — success, failure and skip alike. -/
theorem C4_no_audit_record (env : TaskEnv) (tc : TaskConfig) (host : HostSpec)
    (rc : RunCfg) :
    ((execute_task env tc host rc).2.filter isAuditEv) = [] := by
  have hb : audit_call_binds = false := rfl
  unfold execute_task
  by_cases h1 : should_skip_task env tc host rc
  · simp [h1]
  · by_cases h2 : tc.taskType ∈ task_type_names
    · cases h3 : env.handler tc with
      | error m => simp [h1, h2, h3, isAuditEv]
      | ok hr => simp [h1, h2, h3, hb, isAuditEv]
    · simp [h1, h2]

/-- C10: a task whose `when` or `only_if` condition raises during evaluation
(after variable substitution) is skipped, never failed: the bare `except`
in `_evaluate_condition` maps the exception to `False`, `_should_skip_task`
then reports the task as skipped, and `execute_task` returns the fixed
skipped `TaskResult` without dispatching any handler and without touching
the host (the event trace is empty, so no command runs and nothing is
logged). -/
theorem C10_condition_error_skips (env : TaskEnv) (tc : TaskConfig)
    (host : HostSpec) (rc : RunCfg)
    (h : (∃ c e, tc.whenCond = some c ∧
            env.pyEval (substitute_condition c host) = .error e) ∨
         (∃ c e, tc.onlyIf = some c ∧
            env.pyEval (substitute_condition c host) = .error e)) :
    execute_task env tc host rc =
      (⟨tc.name, "skipped", "Task skipped due to condition", none, false, []⟩,
        []) := by
  have hskip : should_skip_task env tc host rc = true := by
    rcases h with ⟨c, e, hc, he⟩ | ⟨c, e, hc, he⟩
    · simp [should_skip_task, hc, evaluate_condition, he]
    · simp [should_skip_task, hc, evaluate_condition, he]
  simp [execute_task, hskip]

/-- C10 witness: a concrete task guarded by a condition over an unknown
variable, in an environment whose evaluator raises `NameError`. -/
theorem C10_w :
    execute_task envRaisingEval taskBadCond host1 rc0 =
      (⟨"C", "skipped", "Task skipped due to condition", none, false, []⟩,
        []) :=
  C10_condition_error_skips envRaisingEval taskBadCond host1 rc0
    (Or.inl ⟨"undefined_var == 1",
      "NameError: name undefined_var is not defined", rfl, rfl⟩)

end Theorems2


section Theorems3

open SSHExecutorM TaskRunnerM OrchestratorM Fixtures

/-- Helper: intercalating a separator over a list with at least two blocks
peels off the first block and one separator. -/
lemma intercalate_cons_of_ne {α : Type} (sep x : List α) (xs : List (List α))
    (h : xs ≠ []) :
    List.intercalate sep (x :: xs) = x ++ sep ++ List.intercalate sep xs := by
  cases xs with
  | nil => exact absurd rfl h
  | cons y ys =>
      simp only [List.intercalate]
      rw [List.intersperse_cons_cons]
      simp [List.append_assoc]

/-- Helper: chunking a nonempty list yields at least one chunk. -/
lemma specChunks_ne_nil {α : Type} (Bp : Nat) (l : List α) (h : l ≠ []) :
    specChunks Bp l ≠ [] := by
  cases l with
  | nil => exact absurd rfl h
  | cons x t => rw [specChunks]; simp

/-- Helper: the number of fixed-size chunks of a list is the length divided
by the chunk size, rounded up. -/
lemma specChunks_length {α : Type} (Bp : Nat) (l : List α) :
    (specChunks Bp l).length = (l.length + Bp) / (Bp + 1) := by
  suffices h : ∀ (n : Nat) (l : List α), l.length ≤ n →
      (specChunks Bp l).length = (l.length + Bp) / (Bp + 1) from
    h l.length l le_rfl
  intro n
  induction n with
  | zero =>
      intro l hle
      have hl : l = [] := List.length_eq_zero.mp (Nat.le_zero.mp hle)
      subst hl
      rw [specChunks]
      simp only [List.length_nil, Nat.zero_add]
      rw [Nat.div_eq_of_lt (Nat.lt_succ_self Bp)]
  | succ n ih =>
      intro l hle
      cases l with
      | nil =>
          rw [specChunks]
          simp only [List.length_nil, Nat.zero_add]
          rw [Nat.div_eq_of_lt (Nat.lt_succ_self Bp)]
      | cons x t =>
          rw [specChunks]
          have hlt : (t.drop Bp).length ≤ n := by
            simp only [List.length_drop]
            simp only [List.length_cons] at hle
            omega
          simp only [List.length_cons, ih (t.drop Bp) hlt, List.length_drop]
          have e1 : t.length + 1 + Bp = t.length + (Bp + 1) := by omega
          rw [e1, Nat.add_div_right _ (Nat.succ_pos Bp)]
          rcases le_or_lt Bp t.length with hle2 | hlt2
          · have e2 : t.length - Bp + Bp = t.length := by omega
            rw [e2]
          · have e2 : t.length - Bp = 0 := by omega
            rw [e2, Nat.zero_add, Nat.div_eq_of_lt (by omega),
              Nat.div_eq_of_lt (by omega)]

/-- Helper: full characterisation of the rolling executor — the results are
one per host in order, and the event trace is the per-batch host traces
joined by exactly one inter-batch delay event between consecutive batches
(none after the last). -/
lemma execute_rolling_go_spec (env : TaskEnv) (tasks : List TaskConfig)
    (rc : RunCfg) (Bp D : Nat) (hosts : List HostSpec) :
    execute_rolling_go env tasks rc Bp D hosts =
      (hosts.map (fun h => (hostId h, (execute_host_tasks env tasks h rc).1)),
       List.intercalate [Ev.delay D]
        ((specChunks Bp hosts).map
          (fun batch =>
            (batch.map (fun h => (execute_host_tasks env tasks h rc).2)).flatten))) := by
  suffices hsuf : ∀ (n : Nat) (hosts : List HostSpec), hosts.length ≤ n →
      execute_rolling_go env tasks rc Bp D hosts =
        (hosts.map (fun h => (hostId h, (execute_host_tasks env tasks h rc).1)),
         List.intercalate [Ev.delay D]
          ((specChunks Bp hosts).map
            (fun batch =>
              (batch.map (fun h => (execute_host_tasks env tasks h rc).2)).flatten))) from
    hsuf hosts.length hosts le_rfl
  intro n
  induction n with
  | zero =>
      intro hosts hle
      have hl : hosts = [] := List.length_eq_zero.mp (Nat.le_zero.mp hle)
      subst hl
      rw [execute_rolling_go, specChunks]
      simp [List.intercalate]
  | succ n ih =>
      intro hosts hle
      cases hosts with
      | nil =>
          rw [execute_rolling_go, specChunks]
          simp [List.intercalate]
      | cons h rest0 =>
          rw [execute_rolling_go, specChunks]
          by_cases hd : (rest0.drop Bp).isEmpty
          · rw [if_pos hd]
            have hdn : rest0.drop Bp = [] := List.isEmpty_iff.mp hd
            have hlen : rest0.length ≤ Bp := List.drop_eq_nil_iff.mp hdn
            rw [List.take_of_length_le hlen, hdn, specChunks]
            simp [List.intercalate]
          · rw [if_neg hd]
            have hdn : rest0.drop Bp ≠ [] := by
              intro hx
              rw [hx] at hd
              simp at hd
            have hlt : (rest0.drop Bp).length ≤ n := by
              simp only [List.length_drop]
              simp only [List.length_cons] at hle
              omega
            rw [ih (rest0.drop Bp) hlt]
            simp only [Prod.mk.injEq]
            constructor
            · rw [← List.map_append, List.cons_append, List.take_append_drop]
            · simp only [List.map_cons]
              rw [intercalate_cons_of_ne _ _ _
                  (fun hx => specChunks_ne_nil Bp _ hdn (List.map_eq_nil_iff.mp hx))]

/-- C5: for a rolling run over `hosts` with batch size `B` and inter-batch
delay `D` (the hypothesis `hrun` can only hold for `B` at least 1, since a
zero batch size raises `ValueError` out of `range`), exactly
`ceil(|hosts| / B)` batches execute; the event trace is precisely the
per-batch host executions, in batch order, with exactly one delay event of
`D` seconds between consecutive batches and none after the last — so batch
`K+1` is dispatched only after every host execution of batch `K` has
returned — and the run produces exactly one result per host, in order. -/
theorem C5_rolling (env : TaskEnv) (tasks : List TaskConfig) (rc : RunCfg)
    (B D : Nat) (hosts : List HostSpec) (res : List (String × HostResult))
    (trace : List Ev)
    (hrun : execute_rolling env tasks rc B D hosts = some (res, trace)) :
    trace = List.intercalate [Ev.delay D]
        ((specChunks (B - 1) hosts).map
          (fun batch =>
            (batch.map (fun h => (execute_host_tasks env tasks h rc).2)).flatten)) ∧
    (specChunks (B - 1) hosts).length = (hosts.length + B - 1) / B ∧
    res = hosts.map (fun h => (hostId h, (execute_host_tasks env tasks h rc).1)) := by
  cases B with
  | zero => simp [execute_rolling] at hrun
  | succ Bp =>
      simp only [execute_rolling, Option.some.injEq] at hrun
      rw [execute_rolling_go_spec] at hrun
      have h1 : res = hosts.map
          (fun h => (hostId h, (execute_host_tasks env tasks h rc).1)) :=
        (congrArg Prod.fst hrun).symm
      have h2 : trace = List.intercalate [Ev.delay D]
          ((specChunks Bp hosts).map
            (fun batch =>
              (batch.map (fun h => (execute_host_tasks env tasks h rc).2)).flatten)) :=
        (congrArg Prod.snd hrun).symm
      refine ⟨?_, ?_, h1⟩
      · rw [show Bp + 1 - 1 = Bp from rfl]
        exact h2
      · rw [show Bp + 1 - 1 = Bp from rfl, specChunks_length]
        congr 1

/-- C5 witness: two hosts, batch size 1, delay 7 — two batches with one delay
event between them. -/
theorem C5_w :
    (specChunks (1 - 1) [host1, host2]).length = (2 + 1 - 1) / 1 ∧
    [Ev.delay 7] = List.intercalate [Ev.delay 7]
        ((specChunks (1 - 1) [host1, host2]).map
          (fun batch =>
            (batch.map
              (fun h => (execute_host_tasks envAllOk [] h rc0).2)).flatten)) := by
  have h := C5_rolling envAllOk [] rc0 1 7 [host1, host2]
      [("web-01", ⟨"success", [], none⟩), ("web-02", ⟨"success", [], none⟩)]
      [Ev.delay 7]
      (by
        simp [execute_rolling, execute_rolling_go, execute_host_tasks,
          host_tasks_loop, hostId, host1, host2])
  exact ⟨h.2.1, h.1⟩

end Theorems3

section Theorems4

open SSHExecutorM TaskRunnerM OrchestratorM Fixtures

/-- Helper: a per-host result produced by `_execute_host_tasks` always has
status `success` (empty task list) or `failed` (any nonempty task list ends
in the `AttributeError` path) — never anything else. -/
lemma execute_host_tasks_status (env : TaskEnv) (tasks : List TaskConfig)
    (host : HostSpec) (rc : RunCfg) :
    (execute_host_tasks env tasks host rc).1.status = "success" ∨
    (execute_host_tasks env tasks host rc).1.status = "failed" := by
  cases tasks with
  | nil => exact Or.inl rfl
  | cons t ts =>
      refine Or.inr ?_
      simp [execute_host_tasks, host_tasks_loop, taskResult_has_get]

/-- Helper: closed form of `run_playbook` for a positive batch size. -/
lemma run_playbook_spec (env : TaskEnv) (tasks : List TaskConfig) (rc : RunCfg)
    (Bp D : Nat) (hosts : List HostSpec) :
    run_playbook env tasks rc (Bp + 1) D hosts =
      some (⟨calculate_run_status
          (hosts.map (fun h => (hostId h, (execute_host_tasks env tasks h rc).1))),
        hosts.length,
        ((hosts.map (fun h => (hostId h, (execute_host_tasks env tasks h rc).1))).filter
          (fun r => r.2.status = "success")).length,
        ((hosts.map (fun h => (hostId h, (execute_host_tasks env tasks h rc).1))).filter
          (fun r => r.2.status = "failed")).length,
        ((hosts.map (fun h => (hostId h, (execute_host_tasks env tasks h rc).1))).filter
          (fun r => r.2.status = "skipped")).length,
        hosts.map (fun h => (hostId h, (execute_host_tasks env tasks h rc).1))⟩,
       List.intercalate [Ev.delay D]
        ((specChunks Bp hosts).map
          (fun batch =>
            (batch.map (fun h => (execute_host_tasks env tasks h rc).2)).flatten))) := by
  simp only [run_playbook, execute_rolling]
  rw [execute_rolling_go_spec]

/-- C1: the aggregate status rules.  First, for any nonempty per-host result
map, `_calculate_run_status` returns `success` when no host result is
`failed`; returns `failed` when no host result is `success` (host statuses
from completed runs are always `success` or `failed`, per the third
conjunct); and returns `partial` when at least one host succeeded and at
least one failed.  Second, a run over zero resolved hosts returns status
`skipped` with `total_hosts = 0` and an empty event trace (in particular no
task execution is logged).  Third, `run_playbook` wires the rule to the
actual per-host results: the returned status is `_calculate_run_status` of
the returned results, whose statuses are all `success` or `failed`. -/
theorem C1_aggregate_status :
    (∀ results : List (String × HostResult), results ≠ [] →
      ((∀ r ∈ results, r.2.status ≠ "failed") →
        calculate_run_status results = "success") ∧
      ((∀ r ∈ results, r.2.status = "success" ∨ r.2.status = "failed") →
        (∀ r ∈ results, r.2.status ≠ "success") →
        calculate_run_status results = "failed") ∧
      ((∃ r ∈ results, r.2.status = "success") →
        (∃ r ∈ results, r.2.status = "failed") →
        calculate_run_status results = "partial")) ∧
    (∀ (env : TaskEnv) (tasks : List TaskConfig) (rc : RunCfg) (B D : Nat)
        (rr : RunResultL) (evs : List Ev),
      run_playbook env tasks rc B D [] = some (rr, evs) →
      rr.status = "skipped" ∧ rr.total_hosts = 0 ∧ evs = []) ∧
    (∀ (env : TaskEnv) (tasks : List TaskConfig) (rc : RunCfg) (B D : Nat)
        (hosts : List HostSpec) (rr : RunResultL) (evs : List Ev),
      run_playbook env tasks rc B D hosts = some (rr, evs) →
      rr.status = calculate_run_status rr.results ∧
      ∀ r ∈ rr.results, r.2.status = "success" ∨ r.2.status = "failed") := by
  refine ⟨?_, ?_, ?_⟩
  · intro results hne
    have hlen : ¬results.length = 0 := by
      simpa [List.length_eq_zero] using hne
    refine ⟨?_, ?_, ?_⟩
    · intro hnf
      have hf : results.filter (fun r => r.2.status = "failed") = [] := by
        refine List.filter_eq_nil_iff.mpr ?_
        intro a ha
        simpa using hnf a ha
      simp [calculate_run_status, hlen, hf]
    · intro hsf hns
      have hs : results.filter (fun r => r.2.status = "success") = [] := by
        refine List.filter_eq_nil_iff.mpr ?_
        intro a ha
        simpa using hns a ha
      cases results with
      | nil => exact absurd rfl hne
      | cons a t =>
          have ha : a.2.status = "failed" := by
            rcases hsf a (by simp) with h | h
            · exact absurd h (hns a (by simp))
            · exact h
          have hmem : a ∈ (a :: t).filter (fun r => r.2.status = "failed") := by
            simp [List.mem_filter, ha]
          have hfne :
              ¬((a :: t).filter (fun r => r.2.status = "failed")).length = 0 := by
            simpa [List.length_eq_zero] using List.ne_nil_of_mem hmem
          simp [calculate_run_status, hlen, hs, hfne]
    · intro hex1 hex2
      obtain ⟨rs, hrs, hrss⟩ := hex1
      obtain ⟨rf, hrf, hrfs⟩ := hex2
      have h1 : rs ∈ results.filter (fun r => r.2.status = "success") := by
        simp [List.mem_filter, hrs, hrss]
      have h2 : rf ∈ results.filter (fun r => r.2.status = "failed") := by
        simp [List.mem_filter, hrf, hrfs]
      have hf1 :
          ¬(results.filter (fun r => r.2.status = "success")).length = 0 := by
        simpa [List.length_eq_zero] using List.ne_nil_of_mem h1
      have hf2 :
          ¬(results.filter (fun r => r.2.status = "failed")).length = 0 := by
        simpa [List.length_eq_zero] using List.ne_nil_of_mem h2
      simp [calculate_run_status, hlen, hf1, hf2]
  · intro env tasks rc B D rr evs hrun
    cases B with
    | zero => simp [run_playbook, execute_rolling] at hrun
    | succ Bp =>
        rw [run_playbook_spec] at hrun
        simp only [Option.some.injEq, Prod.mk.injEq] at hrun
        obtain ⟨h1, h2⟩ := hrun
        subst h1
        subst h2
        refine ⟨by simp [calculate_run_status], rfl, ?_⟩
        rw [specChunks]
        simp [List.intercalate]
  · intro env tasks rc B D hosts rr evs hrun
    cases B with
    | zero => simp [run_playbook, execute_rolling] at hrun
    | succ Bp =>
        rw [run_playbook_spec] at hrun
        simp only [Option.some.injEq, Prod.mk.injEq] at hrun
        obtain ⟨h1, h2⟩ := hrun
        subst h1
        refine ⟨rfl, ?_⟩
        intro r hr
        obtain ⟨h, hh, rfl⟩ := List.mem_map.mp hr
        exact execute_host_tasks_status env tasks h rc

/-- C1 witness: concrete instances of the aggregation rules — a mixed result
map aggregates to partial, and a run over zero hosts is skipped with an
empty trace. -/
theorem C1_w :
    calculate_run_status
      [("h1", ⟨"success", [], none⟩), ("h2", ⟨"failed", [], none⟩)]
      = "partial" ∧
    (∀ (rr : RunResultL) (evs : List Ev),
      run_playbook envAllOk [taskA] rc0 1 0 [] = some (rr, evs) →
      rr.status = "skipped" ∧ rr.total_hosts = 0 ∧ evs = []) := by
  constructor
  · exact (C1_aggregate_status.1
      [("h1", ⟨"success", [], none⟩), ("h2", ⟨"failed", [], none⟩)]
      (by simp)).2.2
      ⟨("h1", ⟨"success", [], none⟩), by simp, rfl⟩
      ⟨("h2", ⟨"failed", [], none⟩), by simp, rfl⟩
  · intro rr evs hrun
    exact C1_aggregate_status.2.1 envAllOk [taskA] rc0 1 0 rr evs hrun

end Theorems4
